import Mathlib

/-!
Verification development for the `sms_tray` repository (`src/main.go`).

The Go program is a Windows tray service: an HTTP listener on `:9002` receives
short messages, extracts a verification code with the regular expression
`验证码[\s\S]*?(\d+)`, stages it on the clipboard, simulates Ctrl+V, and raises
desktop notifications.  A tray menu starts/stops the listener.

This file shallowly embeds:
  * the code-extraction rule (the regex applied by `FindStringSubmatch` at
    src/main.go:159-164), as a function on `List Char`;
  * the two HTTP handlers `/copy` (src/main.go:154-175) and `/msg`
    (src/main.go:177-184) as effect-recording functions;
  * the clipboard write-then-paste sequence under interleaving of concurrent
    requests (src/main.go:170-173, 224-236);
  * the tray lifecycle (globals `serverRunning`, `serverThread`; functions
    `startServer`, `stopServer`, `httpServerWrapper.Start/Stop`, `onReady`,
    `onExit`) as an explicit state-transition system.
-/

/-- ASCII decimal digit test.  Models the character class `\d` of Go's RE2
regexp engine, which matches exactly the characters `0`..`9`. -/
def isDigitCh (c : Char) : Bool := 48 ≤ c.toNat && c.toNat ≤ 57

/-- The literal marker substring of the pattern at src/main.go:159
(`验证码`, "verification code"). -/
def marker : List Char := ['验', '证', '码']

/-- `startsWith p l` holds when the pattern `p` matches literally at the head
of `l` (used to model matching the literal part of the regex at a fixed
start position). -/
def startsWith : List Char → List Char → Bool
  | [], _ => true
  | _ :: _, [] => false
  | p :: ps, c :: cs => p == c && startsWith ps cs

/-- One attempt of the pattern `验证码[\s\S]*?(\d+)` at a fixed start position
of the text, returning capture group 1 on success.  The literal `验证码` must
match at the start position; the lazy `[\s\S]*?` then consumes the fewest
characters that let `(\d+)` match (i.e. everything up to the first digit
after the marker); the greedy `(\d+)` captures the maximal digit run from
there.  If no digit occurs anywhere after the marker, the attempt fails. -/
def matchAt (l : List Char) : Option (List Char) :=
  if startsWith marker l then
    match (l.drop marker.length).dropWhile (fun c => !isDigitCh c) with
    | [] => none
    | x :: xs => some ((x :: xs).takeWhile isDigitCh)
  else none

/-- Leftmost-first search of `regexp.FindStringSubmatch`: attempt the pattern
at every start position from left to right and return the first success. -/
def findMatch : List Char → Option (List Char)
  | [] => none
  | c :: cs =>
    match matchAt (c :: cs) with
    | some r => some r
    | none => findMatch cs

/-- The extraction rule of src/main.go:159-164: capture group 1 of the first
(leftmost) match of `验证码[\s\S]*?(\d+)` in the message text, or `none` when
the regex does not match (`len(matches) > 1` fails). -/
def extract_code (s : List Char) : Option (List Char) := findMatch s

/-- The text strictly after the first (leftmost) occurrence of the marker in
`s`, or `none` when the marker does not occur in `s`.  This is the reference
vocabulary used to state the claims about `extract_code`. -/
def dropAfterFirstMarker : List Char → Option (List Char)
  | [] => none
  | c :: cs =>
    if startsWith marker (c :: cs) then some ((c :: cs).drop marker.length)
    else dropAfterFirstMarker cs

/- Generic helper lemmas about `takeWhile` / `dropWhile`. -/

theorem tw_append_dw {α : Type} (p : α → Bool) (l : List α) :
    l.takeWhile p ++ l.dropWhile p = l := by
  induction l with
  | nil => rfl
  | cons c cs ih => cases h : p c <;> simp [List.takeWhile, List.dropWhile, h, ih]

theorem mem_tw {α : Type} (p : α → Bool) (l : List α) (x : α)
    (h : x ∈ l.takeWhile p) : p x = true := by
  induction l with
  | nil => simp [List.takeWhile] at h
  | cons c cs ih =>
    cases hc : p c <;> simp [List.takeWhile, hc] at h
    rcases h with h | h
    · exact h ▸ hc
    · exact ih h

theorem dw_nil_of_all {α : Type} (p : α → Bool) (l : List α)
    (h : ∀ x ∈ l, p x = true) : l.dropWhile p = [] := by
  induction l with
  | nil => rfl
  | cons c cs ih =>
    have hc := h c (List.mem_cons_self c cs)
    simp [List.dropWhile, hc]
    exact fun x hx => h x (List.mem_cons_of_mem c hx)

theorem all_of_dw_nil {α : Type} (p : α → Bool) (l : List α)
    (h : l.dropWhile p = []) : ∀ x ∈ l, p x = true := by
  induction l with
  | nil => intro x hx; simp at hx
  | cons c cs ih =>
    intro x hx
    cases hc : p c
    · simp [List.dropWhile, hc] at h
    · simp [List.dropWhile, hc] at h
      rcases List.mem_cons.mp hx with hx | hx
      · exact hx ▸ hc
      · exact h x hx

theorem dw_head_false {α : Type} (p : α → Bool) (l : List α) (x : α) (xs : List α)
    (h : l.dropWhile p = x :: xs) : p x = false := by
  induction l with
  | nil => simp [List.dropWhile] at h
  | cons c cs ih =>
    cases hc : p c
    · simp [List.dropWhile, hc] at h
      exact h.1 ▸ hc
    · simp [List.dropWhile, hc] at h
      exact ih h

/- Structural lemmas connecting `findMatch` with the first marker occurrence. -/

theorem startsWith_eq (p : List Char) :
    ∀ l : List Char, startsWith p l = true → l = p ++ l.drop p.length := by
  induction p with
  | nil => intro l _; simp
  | cons a ps ih =>
    intro l h
    cases l with
    | nil => simp [startsWith] at h
    | cons c cs =>
      simp only [startsWith, Bool.and_eq_true] at h
      obtain ⟨h1, h2⟩ := h
      have hac : a = c := eq_of_beq h1
      subst hac
      have h3 := ih cs h2
      simp only [List.length_cons, List.cons_append, List.drop_succ_cons]
      exact congrArg (a :: ·) h3

theorem dafm_mem (s : List Char) :
    ∀ r : List Char, dropAfterFirstMarker s = some r → ∀ c ∈ r, c ∈ s := by
  induction s with
  | nil => intro r h; simp [dropAfterFirstMarker] at h
  | cons a as ih =>
    intro r h c hc
    cases hp : startsWith marker (a :: as)
    · simp [dropAfterFirstMarker, hp] at h
      exact List.mem_cons_of_mem a (ih r h c hc)
    · simp [dropAfterFirstMarker, hp] at h
      exact List.drop_subset marker.length (a :: as) (h ▸ hc)

theorem findMatch_none_no_marker (s : List Char) :
    dropAfterFirstMarker s = none → findMatch s = none := by
  induction s with
  | nil => intro _; rfl
  | cons a as ih =>
    intro h
    cases hp : startsWith marker (a :: as)
    · simp [dropAfterFirstMarker, hp] at h
      have hm : matchAt (a :: as) = none := by simp [matchAt, hp]
      simp [findMatch, hm]
      exact ih h
    · simp [dropAfterFirstMarker, hp] at h

theorem marker_shape : marker = '验' :: '证' :: '码' :: [] := rfl

theorem findMatch_none_nodigit (s : List Char) :
    ∀ r : List Char, dropAfterFirstMarker s = some r →
      (∀ c ∈ r, isDigitCh c = false) → findMatch s = none := by
  induction s with
  | nil => intro r h; simp [dropAfterFirstMarker] at h
  | cons a as ih =>
    intro r h hnd
    cases hp : startsWith marker (a :: as)
    · simp [dropAfterFirstMarker, hp] at h
      have hm : matchAt (a :: as) = none := by simp [matchAt, hp]
      simp [findMatch, hm]
      exact ih r h hnd
    · simp [dropAfterFirstMarker, hp] at h
      have hsplit := startsWith_eq marker (a :: as) hp
      rw [h] at hsplit
      have has : as = '证' :: '码' :: r := by
        rw [marker_shape] at hsplit
        exact (List.cons.injEq _ _ _ _).mp hsplit |>.2
      have hdw : r.dropWhile (fun c => !isDigitCh c) = [] :=
        dw_nil_of_all _ r fun c hc => by simp [hnd c hc]
      have hm : matchAt (a :: as) = none := by
        simp [matchAt, hp, h, hdw]
      simp [findMatch, hm]
      cases hd2 : dropAfterFirstMarker as with
      | none => exact findMatch_none_no_marker as hd2
      | some r2 =>
        apply ih r2 hd2
        intro c hc
        have hcs : c ∈ as := dafm_mem as r2 hd2 c hc
        rw [has] at hcs
        rcases List.mem_cons.mp hcs with hc' | hcs
        · subst hc'; decide
        rcases List.mem_cons.mp hcs with hc' | hcs
        · subst hc'; decide
        · exact hnd c hcs

theorem findMatch_some (s : List Char) :
    ∀ r : List Char, dropAfterFirstMarker s = some r →
      ∀ x xs, r.dropWhile (fun c => !isDigitCh c) = x :: xs →
      findMatch s = some ((x :: xs).takeWhile isDigitCh) := by
  induction s with
  | nil => intro r h; simp [dropAfterFirstMarker] at h
  | cons a as ih =>
    intro r h x xs hdw
    cases hp : startsWith marker (a :: as)
    · simp [dropAfterFirstMarker, hp] at h
      have hm : matchAt (a :: as) = none := by simp [matchAt, hp]
      simp [findMatch, hm]
      exact ih r h x xs hdw
    · simp [dropAfterFirstMarker, hp] at h
      have hm : matchAt (a :: as) = some ((x :: xs).takeWhile isDigitCh) := by
        simp [matchAt, hp, h, hdw]
      simp [findMatch, hm]

/-- C1: for every input containing the marker `验证码` with at least one
decimal digit somewhere after its first occurrence, `extract_code` returns
`some d` where `d` is the first maximal run of decimal digits appearing after
the first occurrence of the marker (marker and digits may be separated by
arbitrary characters, including line breaks). -/
theorem C1_extract_code_first_run (s rest : List Char)
    (hm : dropAfterFirstMarker s = some rest)
    (hd : ∃ c ∈ rest, isDigitCh c = true) :
    ∃ d pre post,
      extract_code s = some d ∧
      rest = pre ++ (d ++ post) ∧
      (∀ c ∈ pre, isDigitCh c = false) ∧
      d ≠ [] ∧
      (∀ c ∈ d, isDigitCh c = true) ∧
      (∀ c, post.head? = some c → isDigitCh c = false) := by
  obtain ⟨c0, hc0, hc0d⟩ := hd
  have hne : rest.dropWhile (fun c => !isDigitCh c) ≠ [] := by
    intro hnil
    have := all_of_dw_nil _ rest hnil c0 hc0
    simp [hc0d] at this
  obtain ⟨x, xs, hxx⟩ : ∃ x xs, rest.dropWhile (fun c => !isDigitCh c) = x :: xs := by
    cases hh : rest.dropWhile (fun c => !isDigitCh c) with
    | nil => exact absurd hh hne
    | cons x xs => exact ⟨x, xs, rfl⟩
  have hx : isDigitCh x = true := by
    have := dw_head_false (fun c => !isDigitCh c) rest x xs hxx
    simpa using this
  refine ⟨(x :: xs).takeWhile isDigitCh, rest.takeWhile (fun c => !isDigitCh c),
    (x :: xs).dropWhile isDigitCh, ?_, ?_, ?_, ?_, ?_, ?_⟩
  · exact findMatch_some s rest hm x xs hxx
  · rw [tw_append_dw isDigitCh (x :: xs), ← hxx, tw_append_dw]
  · intro c hc
    have := mem_tw _ _ _ hc
    simpa using this
  · simp [List.takeWhile, hx]
  · intro c hc; exact mem_tw isDigitCh (x :: xs) c hc
  · intro c hc
    cases hpost : (x :: xs).dropWhile isDigitCh with
    | nil => rw [hpost] at hc; simp at hc
    | cons y ys =>
      rw [hpost] at hc
      simp at hc
      exact hc ▸ dw_head_false isDigitCh (x :: xs) y ys hpost

/-- Witness for C1 at the spec's example message. -/
theorem C1_extract_code_first_run_w :
    ∃ d pre post,
      extract_code (String.toList "您的验证码是 839201，请勿泄露") = some d ∧
      String.toList "是 839201，请勿泄露" = pre ++ (d ++ post) ∧
      (∀ c ∈ pre, isDigitCh c = false) ∧
      d ≠ [] ∧
      (∀ c ∈ d, isDigitCh c = true) ∧
      (∀ c, post.head? = some c → isDigitCh c = false) :=
  C1_extract_code_first_run _ _ (by decide) ⟨'8', by decide, by decide⟩

/-- C2: `extract_code` returns `none` when the marker does not occur in the
input, and also when no decimal digit occurs after the first occurrence of
the marker. -/
theorem C2_extract_code_none (s : List Char) :
    (dropAfterFirstMarker s = none → extract_code s = none) ∧
    (∀ rest, dropAfterFirstMarker s = some rest →
      (∀ c ∈ rest, isDigitCh c = false) → extract_code s = none) :=
  ⟨fun h => findMatch_none_no_marker s h,
   fun rest h hnd => findMatch_none_nodigit s rest h hnd⟩

/-- Witness for C2: a message without the marker, and a message whose marker
is followed by no digit, both extract nothing. -/
theorem C2_extract_code_none_w :
    extract_code (String.toList "您有一条未读消息") = none ∧
    extract_code (String.toList "验证码已发送，请查收") = none :=
  ⟨(C2_extract_code_none _).1 (by decide),
   (C2_extract_code_none _).2 (String.toList "已发送，请查收") (by decide) (by decide)⟩

/-!
## The HTTP handlers as effect-recording functions

`handleCopy` embeds the `/copy` handler (src/main.go:154-175) and `handleMsg`
the `/msg` handler (src/main.go:177-184).  Each collaborator call (log write,
toast notification, clipboard write, simulated paste) is recorded in order in
an effect record instead of being performed.  `c.PostForm("content")` yields
`""` when the field is missing, so a missing field is the same input as the
empty string.  The `clipboardOk` argument is the outcome of the external call
`clipboard.Init()` at src/main.go:170.
-/

/-- One desktop toast notification (`showToast`, src/main.go:202-211). -/
structure Toast where
  title : List Char
  message : List Char
  deriving DecidableEq

/-- One log line written through `writeLog`, tagged by call site. -/
inductive DLog
  | receivedCopy (content : List Char)
  | extracted (code : List Char)
  | notFound
  | pasted
  | receivedMsg (content : List Char)
  deriving DecidableEq

/-- The observable outcome of one handler invocation: side effects in
program order plus the HTTP response. -/
structure HandlerOut where
  logs : List DLog
  toasts : List Toast
  clipWrites : List (List Char)
  pastes : Nat
  status : Nat
  body : List Char
  deriving DecidableEq

def smsTitle : List Char := String.toList "手机短信"

def msgTitle : List Char := String.toList "手机消息"

def notFoundMsg : List Char := String.toList "未找到验证码"

def successBody : List Char := String.toList "success"

/-- The `/copy` handler (src/main.go:154-175): log the inbound content, toast
it, run the extraction regex; on a match log the code, otherwise toast and log
"not found" and leave `code = ""`; then — unconditionally — if
`clipboard.Init()` succeeded, write `code` (possibly empty) to the clipboard
and run `pasteClipboard` (which logs after injecting Ctrl+V); reply
`200 success`. -/
def handleCopy (clipboardOk : Bool) (content : List Char) : HandlerOut :=
  let code? := extract_code content
  let code := code?.getD []
  let logs1 := [DLog.receivedCopy content]
  let toasts1 := [Toast.mk smsTitle content]
  let logs2 := match code? with
    | some c => logs1 ++ [DLog.extracted c]
    | none => logs1 ++ [DLog.notFound]
  let toasts2 := match code? with
    | some _ => toasts1
    | none => toasts1 ++ [Toast.mk smsTitle notFoundMsg]
  if clipboardOk then
    { logs := logs2 ++ [DLog.pasted], toasts := toasts2,
      clipWrites := [code], pastes := 1, status := 200, body := successBody }
  else
    { logs := logs2, toasts := toasts2,
      clipWrites := [], pastes := 0, status := 200, body := successBody }

/-- The `/msg` handler (src/main.go:177-184): when the content is non-empty,
log it and toast it; otherwise do nothing; always reply `200 success`. -/
def handleMsg (content : List Char) : HandlerOut :=
  if content = [] then
    { logs := [], toasts := [], clipWrites := [], pastes := 0,
      status := 200, body := successBody }
  else
    { logs := [DLog.receivedMsg content], toasts := [Toast.mk msgTitle content],
      clipWrites := [], pastes := 0, status := 200, body := successBody }

/-- C3 counterexample: on the spec's marker-free message (`extract_code`
returns `none`), the `/copy` handler nevertheless writes the empty string to
the clipboard and performs one paste-injection (the write+paste at
src/main.go:170-173 is not guarded by extraction success), refuting the claim
that no clipboard write and no paste occur. -/
theorem C3_no_marker_still_pastes :
    extract_code (String.toList "您有一条未读消息") = none ∧
    (handleCopy true (String.toList "您有一条未读消息")).clipWrites = [[]] ∧
    (handleCopy true (String.toList "您有一条未读消息")).pastes = 1 := by
  decide

/-- C3 amended: on a marker-free `/copy` dispatch, exactly one "not found"
notification is raised (after the unconditional inbound-message notification)
and the response is `200 success`; but when `clipboard.Init()` succeeds the
handler still writes `""` to the clipboard and injects one paste; only an
`Init` failure suppresses the write and the paste. -/
theorem C3_no_marker_amended (content : List Char) (ok : Bool)
    (h : dropAfterFirstMarker content = none) :
    (handleCopy ok content).toasts = [Toast.mk smsTitle content, Toast.mk smsTitle notFoundMsg] ∧
    (handleCopy ok content).logs =
      [DLog.receivedCopy content, DLog.notFound] ++ (if ok then [DLog.pasted] else []) ∧
    (handleCopy ok content).clipWrites = (if ok then [[]] else []) ∧
    (handleCopy ok content).pastes = (if ok then 1 else 0) ∧
    (handleCopy ok content).status = 200 ∧
    (handleCopy ok content).body = successBody := by
  have hx : extract_code content = none := findMatch_none_no_marker content h
  cases ok <;> simp [handleCopy, hx]

/-- Witness for the amended C3. -/
theorem C3_no_marker_amended_w :
    (handleCopy true (String.toList "您有一条未读消息")).toasts =
      [Toast.mk smsTitle (String.toList "您有一条未读消息"), Toast.mk smsTitle notFoundMsg] ∧
    (handleCopy true (String.toList "您有一条未读消息")).logs =
      [DLog.receivedCopy (String.toList "您有一条未读消息"), DLog.notFound] ++
        (if true then [DLog.pasted] else []) ∧
    (handleCopy true (String.toList "您有一条未读消息")).clipWrites =
      (if true then [[]] else []) ∧
    (handleCopy true (String.toList "您有一条未读消息")).pastes = (if true then 1 else 0) ∧
    (handleCopy true (String.toList "您有一条未读消息")).status = 200 ∧
    (handleCopy true (String.toList "您有一条未读消息")).body = successBody :=
  C3_no_marker_amended (String.toList "您有一条未读消息") true (by decide)

/-- C8: for every `/msg` request, empty (or missing, decoded as empty) content
produces zero notifications and zero log entries; non-empty content is logged
and raises exactly one notification; in all cases the response is
`200 success`. -/
theorem C8_msg_route (content : List Char) :
    (content = [] → (handleMsg content).toasts = [] ∧ (handleMsg content).logs = []) ∧
    (content ≠ [] →
      (handleMsg content).logs = [DLog.receivedMsg content] ∧
      (handleMsg content).toasts = [Toast.mk msgTitle content]) ∧
    (handleMsg content).status = 200 ∧
    (handleMsg content).body = successBody := by
  by_cases h : content = [] <;> simp [handleMsg, h]

/-- Witness for C8 at the empty and a non-empty content. -/
theorem C8_msg_route_w :
    ((handleMsg []).toasts = [] ∧ (handleMsg []).logs = []) ∧
    ((handleMsg (String.toList "hello")).logs =
        [DLog.receivedMsg (String.toList "hello")] ∧
      (handleMsg (String.toList "hello")).toasts =
        [Toast.mk msgTitle (String.toList "hello")]) ∧
    (handleMsg (String.toList "hello")).status = 200 ∧
    (handleMsg (String.toList "hello")).body = successBody :=
  ⟨(C8_msg_route []).1 rfl,
   (C8_msg_route (String.toList "hello")).2.1 (by decide),
   ((C8_msg_route (String.toList "hello")).2.2.1),
   ((C8_msg_route (String.toList "hello")).2.2.2)⟩

/-!
## Clipboard write-then-paste under concurrent dispatch

Each `/copy` dispatch executes `clipboard.Write` followed by `pasteClipboard`
(src/main.go:170-173) with no mutual exclusion; gin serves concurrent
requests on independent goroutines, so the actions of different dispatches
may interleave arbitrarily on the shared OS clipboard.
-/

/-- An atomic action of a `/copy` dispatch on the shared clipboard: the
clipboard write (src/main.go:171) or the Ctrl+V paste (src/main.go:172),
tagged with the id of the request performing it. -/
inductive ClipAct
  | write (rid : Nat) (code : List Char)
  | paste (rid : Nat)
  deriving DecidableEq

/-- The clipboard actions of one `/copy` dispatch, in program order. -/
def progOf (rid : Nat) (code : List Char) : List ClipAct :=
  [ClipAct.write rid code, ClipAct.paste rid]

/-- Run a trace of clipboard actions against the shared clipboard (initial
content `clip`), returning for each paste event the request id together with
the clipboard content that the paste actually pasted. -/
def runClip : List ClipAct → List Char → List (Nat × List Char)
  | [], _ => []
  | ClipAct.write _ c :: rest, _ => runClip rest c
  | ClipAct.paste i :: rest, clip => (i, clip) :: runClip rest clip

/-- `Interleave xs ys zs`: `zs` is an interleaving of `xs` and `ys`
preserving the order within each (two goroutines scheduled on one history). -/
inductive Interleave : List ClipAct → List ClipAct → List ClipAct → Prop
  | nil : Interleave [] [] []
  | left {a : ClipAct} {xs ys zs : List ClipAct} :
      Interleave xs ys zs → Interleave (a :: xs) ys (a :: zs)
  | right {a : ClipAct} {xs ys zs : List ClipAct} :
      Interleave xs ys zs → Interleave xs (a :: ys) (a :: zs)

/-- C9 counterexample: a valid interleaving of two concurrent `/copy`
dispatches (request 0 with code "11", request 1 with code "22") in which both
writes precede both pastes; request 0's paste pastes request 1's code.  The
code has no critical section around write-then-paste (src/main.go:170-173),
so this schedule is admissible, refuting the claim that the paste always
pastes the code most recently written by the same dispatch. -/
theorem C9_interleaving_cross_paste :
    Interleave (progOf 0 (String.toList "11")) (progOf 1 (String.toList "22"))
      [ClipAct.write 0 (String.toList "11"), ClipAct.write 1 (String.toList "22"),
       ClipAct.paste 0, ClipAct.paste 1] ∧
    (0, String.toList "22") ∈
      runClip
        [ClipAct.write 0 (String.toList "11"), ClipAct.write 1 (String.toList "22"),
         ClipAct.paste 0, ClipAct.paste 1] [] ∧
    String.toList "22" ≠ String.toList "11" :=
  ⟨Interleave.left (Interleave.right (Interleave.left (Interleave.right Interleave.nil))),
   by decide, by decide⟩

/-- The fully sequential schedule of a list of `/copy` dispatches: each
dispatch's write and paste run back to back, with no interleaving. -/
def seqTrace : List (Nat × List Char) → List ClipAct
  | [] => []
  | (i, c) :: rs => progOf i c ++ seqTrace rs

/-- C9 amended: the code has no per-dispatch critical section, so under
concurrent dispatch a paste may pick up another request's code
(`C9_interleaving_cross_paste`); the claimed property holds only of schedules
with no interleaving: on the sequential schedule every paste pastes exactly
the code written by its own dispatch, whatever the initial clipboard. -/
theorem C9_sequential_pastes_own_code (reqs : List (Nat × List Char)) (clip0 : List Char) :
    runClip (seqTrace reqs) clip0 = reqs := by
  induction reqs generalizing clip0 with
  | nil => rfl
  | cons r rs ih =>
    obtain ⟨i, c⟩ := r
    simp [seqTrace, progOf, runClip, ih]

/-!
## The tray lifecycle as a state-transition system

State of the process: the globals `serverRunning` and `serverThread`
(src/main.go:26-32), the log file, and the `:9002` port.  A
`httpServerWrapper` (src/main.go:35-56) is reduced to whether its `stopCh`
has been closed and whether the goroutine spawned by its `Start` succeeded in
binding the port.  Crucially, per src/main.go:41-56, `Start` spawns
`gin.Engine.Run` on a goroutine that runs forever once bound, and `Stop` only
executes `close(s.stopCh)` — no goroutine ever reads `stopCh`, so a binding
once acquired is never released; and closing an already-closed channel is a
runtime panic.

`bound` counts the live port bindings held by this process; the OS grants a
bind only when the port is completely free (`ext = false` models whether some
other process holds the port; it never changes).  `stops` counts invocations
of `httpServerWrapper.Stop`.  The auto-start goroutine of `onReady`
(src/main.go:100-106) runs concurrently with the menu loop
(src/main.go:108-146), so it is modelled as two separately schedulable steps:
first `startServer()`, then `serverRunning = true` plus its log line.
-/

/-- Log lines written through `writeLog`, tagged by call site. -/
inductive LogMsg
  | programStart
  | listening
  | bindError
  | httpStopped
  | autoStarted
  | started
  | stopped
  | exitMsg
  deriving DecidableEq

/-- The modelled part of a `httpServerWrapper` (src/main.go:35-39):
whether `stopCh` has been closed, and whether the goroutine spawned by
`Start` acquired the port binding. -/
structure Wrapper where
  chanClosed : Bool
  isBound : Bool
  deriving DecidableEq

/-- Process state. -/
structure St where
  flag : Bool
  thread : Option Wrapper
  bound : Nat
  ext : Bool
  auto : Nat
  logClosed : Bool
  panicked : Bool
  log : List LogMsg
  stops : Nat
  badLogWrites : Nat
  quitDone : Bool
  deriving DecidableEq

/-- `writeLog` (src/main.go:78-83): appends a line to the log file.  A write
attempted after `logFile.Close()` fails inside the log package and appends
nothing; such attempts are counted. -/
def writeLogS (m : LogMsg) (s : St) : St :=
  if s.logClosed then { s with badLogWrites := s.badLogWrites + 1 }
  else { s with log := s.log ++ [m] }

/-- `startServer` (src/main.go:150-193) followed by the goroutine body of
`httpServerWrapper.Start` (src/main.go:41-49): build the router, install the
new wrapper in `serverThread`, log the listen line, then attempt
`gin.Engine.Run(":9002")`. The bind succeeds only when no other owner holds
the port; on failure `Run` returns an error which is logged
(`HTTP 启动错误`), and the goroutine exits without a binding. -/
def startServerF (s : St) : St :=
  let s1 := writeLogS LogMsg.listening s
  if s1.ext = false ∧ s1.bound = 0 then
    { s1 with thread := some (Wrapper.mk false true), bound := s1.bound + 1 }
  else
    let s2 := writeLogS LogMsg.bindError s1
    { s2 with thread := some (Wrapper.mk false false) }

/-- `stopServer` (src/main.go:195-199) and `httpServerWrapper.Stop`
(src/main.go:51-56): when `serverThread` is non-nil, `close(s.stopCh)` —
a runtime panic if `stopCh` is already closed — then log `HTTP 服务关闭`.
The port binding, if any, is NOT released: nothing consumes `stopCh` and
`gin.Engine.Run` offers no shutdown. -/
def stopServerF (s : St) : St :=
  match s.thread with
  | none => s
  | some w =>
    if w.chanClosed then { s with panicked := true, stops := s.stops + 1 }
    else
      writeLogS LogMsg.httpStopped
        { s with thread := some (Wrapper.mk true w.isBound), stops := s.stops + 1 }

/-- The `mStart.ClickedCh` case of the menu loop (src/main.go:111-118):
only when `serverRunning` is false, run `startServer()`, set
`serverRunning = true`, and log. -/
def startClickF (s : St) : St :=
  if s.flag then s
  else writeLogS LogMsg.started { startServerF s with flag := true }

/-- The `mStop.ClickedCh` case of the menu loop (src/main.go:119-126):
only when `serverRunning` is true, run `stopServer()` (which can panic),
set `serverRunning = false`, and log. -/
def stopClickF (s : St) : St :=
  if s.flag then
    let s1 := stopServerF s
    if s1.panicked then s1
    else writeLogS LogMsg.stopped { s1 with flag := false }
  else s

/-- First schedulable half of the auto-start goroutine (src/main.go:100-106):
the unconditional `startServer()` call. -/
def auto1F (s : St) : St := { startServerF s with auto := 1 }

/-- Second schedulable half of the auto-start goroutine: `serverRunning =
true` and the `HTTP 服务已自动启动` log line. -/
def auto2F (s : St) : St := writeLogS LogMsg.autoStarted { s with flag := true, auto := 2 }

/-- `onExit` (src/main.go:239-244): `stopServer()` (which can panic before
anything else happens), log `程序退出`, `logFile.Sync()`, `logFile.Close()`. -/
def onExitF (s : St) : St :=
  let s1 := stopServerF s
  if s1.panicked then s1
  else { writeLogS LogMsg.exitMsg s1 with logClosed := true }

/-- The `mQuit.ClickedCh` case of the menu loop (src/main.go:140-143): the
handler calls `onExit()` directly and then `systray.Quit()`.  Per the
getlantern/systray contract, `Quit` makes `systray.Run` invoke the exit
callback registered at src/main.go:62 — which is `onExit` again — so the
teardown runs a second time unless the first run already panicked. -/
def quitF (s : St) : St :=
  let s1 := onExitF s
  if s1.panicked then s1
  else { onExitF s1 with quitDone := true }

/-- Process state right after `setupLog` and `systray.Run` deliver `onReady`
(src/main.go:60-76): nothing started, one log line, `ext` records whether
some other process already holds port 9002. -/
def initSt (ext : Bool) : St :=
  { flag := false, thread := none, bound := 0, ext := ext, auto := 0,
    logClosed := false, panicked := false, log := [LogMsg.programStart],
    stops := 0, badLogWrites := 0, quitDone := false }

/-- Interleaved small-step relation of the tray process: the two halves of
the auto-start goroutine, and the four menu events, may fire in any order as
long as the process is alive (no unrecovered panic, not yet quit). -/
inductive Step : St → St → Prop
  | auto1 {s : St} (h1 : s.panicked = false) (h2 : s.quitDone = false)
      (h3 : s.auto = 0) : Step s (auto1F s)
  | auto2 {s : St} (h1 : s.panicked = false) (h2 : s.quitDone = false)
      (h3 : s.auto = 1) : Step s (auto2F s)
  | startClick {s : St} (h1 : s.panicked = false) (h2 : s.quitDone = false) :
      Step s (startClickF s)
  | stopClick {s : St} (h1 : s.panicked = false) (h2 : s.quitDone = false) :
      Step s (stopClickF s)
  | quitClick {s : St} (h1 : s.panicked = false) (h2 : s.quitDone = false) :
      Step s (quitF s)

/-- States reachable from a fresh process (for either port availability). -/
inductive Reachable : St → Prop
  | init (ext : Bool) : Reachable (initSt ext)
  | step {s t : St} : Reachable s → Step s t → Reachable t

@[simp] theorem writeLogS_bound (m : LogMsg) (s : St) : (writeLogS m s).bound = s.bound := by
  unfold writeLogS; split <;> rfl

@[simp] theorem writeLogS_flag (m : LogMsg) (s : St) : (writeLogS m s).flag = s.flag := by
  unfold writeLogS; split <;> rfl

@[simp] theorem writeLogS_ext (m : LogMsg) (s : St) : (writeLogS m s).ext = s.ext := by
  unfold writeLogS; split <;> rfl

@[simp] theorem writeLogS_panicked (m : LogMsg) (s : St) :
    (writeLogS m s).panicked = s.panicked := by
  unfold writeLogS; split <;> rfl

theorem stopServerF_bound (s : St) : (stopServerF s).bound = s.bound := by
  unfold stopServerF
  cases s.thread with
  | none => rfl
  | some w => dsimp only; split <;> simp

theorem startServerF_bound_le (s : St) (h : s.bound ≤ 1) : (startServerF s).bound ≤ 1 := by
  unfold startServerF
  dsimp only
  split
  · rename_i hc
    have h0 : s.bound = 0 := by simpa using hc.2
    simp [h0]
  · simpa using h

theorem onExitF_bound (s : St) : (onExitF s).bound = s.bound := by
  unfold onExitF
  dsimp only
  split
  · exact stopServerF_bound s
  · simp [stopServerF_bound s]

theorem quitF_bound (s : St) : (quitF s).bound = s.bound := by
  unfold quitF
  dsimp only
  split
  · exact onExitF_bound s
  · simp [onExitF_bound, onExitF_bound s]

theorem bound_invariant {s : St} (h : Reachable s) : s.bound ≤ 1 := by
  induction h with
  | init ext => exact Nat.zero_le 1
  | step hr hstep ih =>
    cases hstep with
    | auto1 h1 h2 h3 =>
      show (auto1F _).bound ≤ 1
      unfold auto1F
      exact startServerF_bound_le _ ih
    | auto2 h1 h2 h3 =>
      show (auto2F _).bound ≤ 1
      unfold auto2F
      simpa using ih
    | startClick h1 h2 =>
      show (startClickF _).bound ≤ 1
      unfold startClickF
      split
      · exact ih
      · simpa using startServerF_bound_le _ ih
    | stopClick h1 h2 =>
      show (stopClickF _).bound ≤ 1
      unfold stopClickF
      split
      · dsimp only
        split
        · simpa [stopServerF_bound] using ih
        · simpa [stopServerF_bound] using ih
      · exact ih
    | quitClick h1 h2 =>
      show (quitF _).bound ≤ 1
      simpa [quitF_bound] using ih

@[simp] theorem writeLogS_thread (m : LogMsg) (s : St) : (writeLogS m s).thread = s.thread := by
  unfold writeLogS; split <;> rfl

@[simp] theorem writeLogS_stops (m : LogMsg) (s : St) : (writeLogS m s).stops = s.stops := by
  unfold writeLogS; split <;> rfl

@[simp] theorem writeLogS_quitDone (m : LogMsg) (s : St) :
    (writeLogS m s).quitDone = s.quitDone := by
  unfold writeLogS; split <;> rfl

@[simp] theorem writeLogS_logClosed (m : LogMsg) (s : St) :
    (writeLogS m s).logClosed = s.logClosed := by
  unfold writeLogS; split <;> rfl

theorem writeLogS_log_open (m : LogMsg) (s : St) (h : s.logClosed = false) :
    (writeLogS m s).log = s.log ++ [m] := by
  unfold writeLogS; simp [h]

theorem startServerF_logClosed (s : St) : (startServerF s).logClosed = s.logClosed := by
  unfold startServerF; dsimp only; split <;> simp

/-- Whenever the port is not free (held by another process or by an earlier
goroutine of this process), the bind attempt of `startServerF` fails and the
error is logged. -/
theorem startServerF_bindError (s : St) (h1 : s.logClosed = false)
    (h2 : s.ext = true ∨ s.bound ≠ 0) :
    LogMsg.bindError ∈ (startServerF s).log := by
  unfold startServerF
  dsimp only
  split
  · rename_i hc
    rcases h2 with h2 | h2
    · have := hc.1; simp [h2] at this
    · have := hc.2; simp at this; exact absurd this h2
  · have e1 : (writeLogS LogMsg.listening s).logClosed = false := by simp [h1]
    simp [writeLogS_log_open _ _ e1, writeLogS_log_open _ _ h1]

/-- C5: `start()` is a no-op when `serverRunning` is already true and
`stop()` is a no-op when it is already false (double clicks are idempotent),
and in every reachable state of the lifecycle step relation — the automatic
start at tray startup included — at most one listener of this process is
bound to port 9002. -/
theorem C5_idempotent_and_single_listener (s : St) (h : Reachable s) :
    s.bound ≤ 1 ∧
    (s.flag = true → startClickF s = s) ∧
    (s.flag = false → stopClickF s = s) :=
  ⟨bound_invariant h,
   fun hf => by simp [startClickF, hf],
   fun hf => by simp [stopClickF, hf]⟩

/-- Witness for C5 at the state reached after the automatic start. -/
theorem C5_idempotent_and_single_listener_w :
    (auto2F (auto1F (initSt false))).bound ≤ 1 ∧
    ((auto2F (auto1F (initSt false))).flag = true →
      startClickF (auto2F (auto1F (initSt false))) = auto2F (auto1F (initSt false))) ∧
    ((auto2F (auto1F (initSt false))).flag = false →
      stopClickF (auto2F (auto1F (initSt false))) = auto2F (auto1F (initSt false))) :=
  C5_idempotent_and_single_listener _
    (Reachable.step
      (Reachable.step (Reachable.init false)
        (Step.auto1 (by decide) (by decide) (by decide)))
      (Step.auto2 (by decide) (by decide) (by decide)))

/-- C4: after the auto-started listener is Running, clicking Stop and then
Start does NOT rebind: `Stop` only closed `stopCh` (which nothing reads), the
old goroutine still holds the port (`bound = 1`), and the new wrapper's bind
fails with a logged error (`thread = some ⟨false, false⟩`: fresh channel, not
bound).  Evaluates the model on the failing stop-then-start input. -/
theorem C4_stop_does_not_release_port :
    Reachable (startClickF (stopClickF (auto2F (auto1F (initSt false))))) ∧
    (startClickF (stopClickF (auto2F (auto1F (initSt false))))).bound = 1 ∧
    (startClickF (stopClickF (auto2F (auto1F (initSt false))))).thread =
      some (Wrapper.mk false false) ∧
    LogMsg.bindError ∈ (startClickF (stopClickF (auto2F (auto1F (initSt false))))).log :=
  ⟨Reachable.step
    (Reachable.step
      (Reachable.step
        (Reachable.step (Reachable.init false)
          (Step.auto1 (by decide) (by decide) (by decide)))
        (Step.auto2 (by decide) (by decide) (by decide)))
      (Step.stopClick (by decide) (by decide)))
    (Step.startClick (by decide) (by decide)),
   by decide, by decide, by decide⟩

/-- C6 counterexample: start the tray while another process holds port 9002
(`ext = true`).  The bind failure is logged, but the auto-start path sets
`serverRunning = true` anyway: a reachable state says Running while no
listener of this process is bound — refuting "the lifecycle state remains
Stopped". -/
theorem C6_half_running_after_bind_failure :
    Reachable (auto2F (auto1F (initSt true))) ∧
    LogMsg.bindError ∈ (auto2F (auto1F (initSt true))).log ∧
    (auto2F (auto1F (initSt true))).flag = true ∧
    (auto2F (auto1F (initSt true))).thread = some (Wrapper.mk false false) ∧
    (auto2F (auto1F (initSt true))).bound = 0 :=
  ⟨Reachable.step
    (Reachable.step (Reachable.init true)
      (Step.auto1 (by decide) (by decide) (by decide)))
    (Step.auto2 (by decide) (by decide) (by decide)),
   by decide, by decide, by decide, by decide⟩

/-- C6 amended: when the bind fails the failure is always reported in the
log, but the start paths do not observe the asynchronous bind outcome: the
Start click still sets `serverRunning = true`, so the flag does not remain
Stopped after a failed bind. -/
theorem C6_bind_failure_logged_but_flag_set (s : St) (h1 : s.logClosed = false)
    (h2 : s.ext = true ∨ s.bound ≠ 0) :
    LogMsg.bindError ∈ (startServerF s).log ∧
    (s.flag = false →
      (startClickF s).flag = true ∧ LogMsg.bindError ∈ (startClickF s).log) := by
  refine ⟨startServerF_bindError s h1 h2, fun hf => ?_⟩
  unfold startClickF
  rw [if_neg (by simp [hf])]
  constructor
  · simp
  · have e1 : (startServerF s).logClosed = false := by rw [startServerF_logClosed]; exact h1
    have e2 : ({ startServerF s with flag := true } : St).logClosed = false := e1
    rw [writeLogS_log_open _ _ e2]
    exact List.mem_append_left _ (startServerF_bindError s h1 h2)

/-- Witness for the amended C6: fresh start with the port externally held. -/
theorem C6_bind_failure_logged_but_flag_set_w :
    LogMsg.bindError ∈ (startServerF (initSt true)).log ∧
    ((initSt true).flag = false →
      (startClickF (initSt true)).flag = true ∧
      LogMsg.bindError ∈ (startClickF (initSt true)).log) :=
  C6_bind_failure_logged_but_flag_set (initSt true) rfl (Or.inl rfl)

/-- C7: on a Quit click from the Running state the teardown does NOT run
exactly once: the handler calls `onExit()` itself and `systray.Quit()` makes
the library call `onExit` a second time, so `wrapper.Stop` runs twice
(`stops = 2`); the second attempt happens after `logFile.Close()`
(`logClosed = true`) and panics on the already-closed channel.  Evaluates the
model on the failing Quit input. -/
theorem C7_quit_runs_teardown_twice :
    Reachable (quitF (auto2F (auto1F (initSt false)))) ∧
    (quitF (auto2F (auto1F (initSt false)))).stops = 2 ∧
    (quitF (auto2F (auto1F (initSt false)))).panicked = true ∧
    (quitF (auto2F (auto1F (initSt false)))).logClosed = true :=
  ⟨Reachable.step
    (Reachable.step
      (Reachable.step (Reachable.init false)
        (Step.auto1 (by decide) (by decide) (by decide)))
      (Step.auto2 (by decide) (by decide) (by decide)))
    (Step.quitClick (by decide) (by decide)),
   by decide, by decide, by decide⟩

/-- C10: `httpServerWrapper.Stop` is not idempotent — with the wrapper
already stopped a second `Stop` reaches `close` of a closed channel and
panics; and the Quit menu path invokes the teardown (hence `stopServer`)
twice, since `stopServer`'s nil check does not guard an already-stopped
wrapper: from any live state holding a running wrapper, the Quit click
performs two `Stop` invocations and ends panicked. -/
theorem C10_second_stop_panics (s : St) (w : Wrapper) (h1 : s.thread = some w)
    (h2 : w.chanClosed = false) (h3 : s.panicked = false) :
    (stopServerF (stopServerF s)).panicked = true ∧
    (quitF s).stops = s.stops + 2 ∧
    (quitF s).panicked = true := by
  refine ⟨?_, ?_, ?_⟩ <;> simp [quitF, onExitF, stopServerF, h1, h2, h3]

/-- Witness for C10 at the auto-started Running state. -/
theorem C10_second_stop_panics_w :
    (stopServerF (stopServerF (auto2F (auto1F (initSt false))))).panicked = true ∧
    (quitF (auto2F (auto1F (initSt false)))).stops =
      (auto2F (auto1F (initSt false))).stops + 2 ∧
    (quitF (auto2F (auto1F (initSt false)))).panicked = true :=
  C10_second_stop_panics _ (Wrapper.mk false true) (by decide) rfl (by decide)
